import Mathlib

/-!
Verification of the BugHog regression-bisection core against its Python
sources, via a shallow embedding in Lean.

The embedding follows the source files:
  src/bci/version_control/states/state.py
  src/bci/database/mongo/mongodb.py
  src/bci/evaluations/custom/custom_evaluation.py

Python `dict[str, str]` values are modelled as association lists with
Python dict equality (agreement of lookups in both directions); MongoDB
collections are modelled as lists of documents in insertion order, with
`find_one` returning the first match, `insert_one` appending, and
`update_one ... upsert=True` replacing the first matching document or
appending when none matches.  Mutation of Python objects is modelled by
explicit state passing.
-/

namespace BugHog

/-- Embeds `StateCondition` (state.py): the condition of a state. -/
inductive StateCondition where
  | COMPLETED
  | FAILED
  | IN_PROGRESS
  | PENDING
  | UNAVAILABLE
  deriving DecidableEq, Repr

/-- A Python `dict[str, str]`, as an association list. -/
abbrev Entry := List (String × String)

/-- Python dict equality for `Entry`: the two dicts agree on every key of
either one.  (For duplicate-free association lists this is exactly equality
of the underlying key-value maps.) -/
def dictEq (a b : Entry) : Bool :=
  a.all (fun kv => b.lookup kv.1 == some kv.2) && b.all (fun kv => a.lookup kv.1 == some kv.2)

/-- A collected network request; the code only ever reads its `url` field. -/
structure RequestEntry where
  url : String
  deriving DecidableEq, Repr

/-- Embeds `StateResult` (state.py): the immutable record of one evaluation. -/
structure StateResult where
  requests : List RequestEntry
  request_vars : List Entry
  log_vars : List Entry
  is_dirty : Bool
  deriving DecidableEq, Repr

/-- The entry `\x7b'var': 'reproduced', 'val': 'OK'\x7d` from
`StateResult.reproduced` (state.py line 34). -/
def entry_if_reproduced : Entry := [("var", "reproduced"), ("val", "OK")]

/-- Embeds the derived property `StateResult.reproduced` (state.py lines 32-37):
filters both var lists for entries dict-equal to `entry_if_reproduced` and
tests the filtered lists for non-emptiness. -/
def StateResult.reproduced (r : StateResult) : Bool :=
  let reproduced_in_req_vars := !(r.request_vars.filter (fun e => dictEq e entry_if_reproduced)).isEmpty
  let reproduced_in_log_vars := !(r.log_vars.filter (fun e => dictEq e entry_if_reproduced)).isEmpty
  reproduced_in_req_vars || reproduced_in_log_vars

/-- Embeds `StateResult.from_dict` (state.py lines 39-41). -/
def StateResult.from_data (requests : List RequestEntry) (req_vars log_vars : List Entry)
    (is_dirty : Bool) : StateResult :=
  ⟨requests, req_vars, log_vars, is_dirty⟩

/-- The serialized identity of a state (`state.to_dict()`): the canonical
record fields the MongoDB queries read (`type`, `browser_name`,
`revision_number`) together with the state's `index`. -/
structure StateData where
  type : String
  browser_name : String
  index : Nat
  revision_number : Nat
  deriving DecidableEq, Repr

/-- Embeds a `State` object (state.py): its serialized identity together
with the three mutable fields set during evaluation. -/
structure State where
  data : StateData
  condition : StateCondition
  result : Option StateResult
  outcome : Option Bool
  deriving DecidableEq, Repr

def State.index (s : State) : Nat := s.data.index

def State.browser_name (s : State) : String := s.data.browser_name

def State.type (s : State) : String := s.data.type

def State.revision_nb (s : State) : Nat := s.data.revision_number

/-- Embeds `State.__eq__` (state.py lines 118-121): equality of two states
compares only their `index`. -/
def State.eq (a b : State) : Bool := a.index == b.index

/-- Embeds `State.__hash__` (state.py lines 123-124): the hash of a state is
the ambient hash `h` applied to the pair `(index, browser_name)`.  The
ambient tuple hash is a parameter of the model. -/
def State.hashWith (h : Nat → String → Nat) (s : State) : Nat :=
  h s.index s.browser_name

/-- Reconstruction of a revision state from its canonical record.
Modelled from the spec: `BaseRevision.from_dict` lives outside src/; per the
spec a reconstructed state is a fresh state with the given identity, so its
condition is `PENDING` and no result or outcome is set. -/
def BaseRevision.from_dict (d : StateData) : State :=
  ⟨d, .PENDING, none, none⟩

/-- Reconstruction of a version state from its canonical record.
Modelled from the spec: `BaseVersion.from_dict` lives outside src/; see
`BaseRevision.from_dict`. -/
def BaseVersion.from_dict (d : StateData) : State :=
  ⟨d, .PENDING, none, none⟩

/-- Embeds `State.from_dict` (state.py lines 82-93): dispatches on the
record's `type` discriminator and raises on any other value. -/
def State.from_dict (d : StateData) : Except String State :=
  match d.type with
  | "revision" => .ok (BaseRevision.from_dict d)
  | "version" => .ok (BaseVersion.from_dict d)
  | _ => .error ("Unknown state type: " ++ d.type)

/-- The observable effect of one call to `State.has_available_binary`:
the returned boolean, the state afterwards, and whether the online probe
`has_online_binary` was invoked. -/
structure HasAvailableBinaryRun where
  ret : Bool
  after : State
  probed : Bool
  deriving DecidableEq, Repr

/-- Embeds `State.has_available_binary` (state.py lines 103-110).  The result
of the online probe `has_online_binary` (an abstract method) is passed in as
`online`; `probed` records whether the probe was consulted. -/
def State.has_available_binary (s : State) (online : Bool) : HasAvailableBinaryRun :=
  if s.condition = .UNAVAILABLE then
    ⟨false, s, false⟩
  else if online then
    ⟨true, s, true⟩
  else
    ⟨false, { s with condition := .UNAVAILABLE }, true⟩

/-! ### Helper lemmas -/

/-- A Boolean list is not empty exactly when it has a member. -/
theorem isEmpty_false_iff {α : Type} (l : List α) : l.isEmpty = false ↔ l ≠ [] := by
  cases l <;> simp

/-- Python truthiness of a filtered list: non-empty iff a member satisfies
the predicate. -/
theorem filter_nonempty_iff {α : Type} (p : α → Bool) (l : List α) :
    (!(l.filter p).isEmpty) = true ↔ ∃ x ∈ l, p x = true := by
  rw [Bool.not_eq_true', isEmpty_false_iff, ne_eq, List.filter_eq_nil_iff]
  push_neg
  simp

/-! ### Claims about the state model (C1-C4) -/

/-- Concrete states used to settle C1: same index `5`, different browsers. -/
def stateA : State := ⟨⟨"revision", "chromium", 5, 100⟩, .PENDING, none, none⟩

def stateB : State := ⟨⟨"revision", "firefox", 5, 100⟩, .PENDING, none, none⟩

/-- C1 fails on the code: `State.__eq__` compares only `index`, so the two
states `stateA` and `stateB` (same index, different `browser_name`) are
equal, contradicting the claim that such states are not equal; moreover a
hash of the pair `(index, browser_name)` (here: the length of the browser
name) tells them apart, so equal states need not have equal hashes. -/
theorem C1_eq_ignores_browser_name_counterexample :
    State.eq stateA stateB = true ∧
    stateA.browser_name ≠ stateB.browser_name ∧
    State.hashWith (fun _ s => s.length) stateA ≠ State.hashWith (fun _ s => s.length) stateB := by
  refine ⟨rfl, ?_, ?_⟩ <;> decide

/-- C1 (amended): two states are equal iff they agree on `index` alone
(`browser_name` plays no part in equality); and whenever two states agree on
both `index` and `browser_name` they are equal and have equal hashes under
every hash of the pair `(index, browser_name)`. -/
theorem C1_eq_by_index_hash_by_index_and_browser (a b : State) :
    (State.eq a b = true ↔ a.index = b.index) ∧
    (a.index = b.index ∧ a.browser_name = b.browser_name →
      State.eq a b = true ∧
      ∀ h : Nat → String → Nat, State.hashWith h a = State.hashWith h b) := by
  constructor
  · simp [State.eq]
  · rintro ⟨h1, h2⟩
    exact ⟨by simp [State.eq, h1], fun h => by simp [State.hashWith, h1, h2]⟩

/-- Witness for C1's amended theorem at two concrete states agreeing on both
index and browser name. -/
theorem C1_eq_by_index_hash_by_index_and_browser_witness :
    State.eq stateA ⟨⟨"version", "chromium", 5, 7⟩, .PENDING, none, none⟩ = true ∧
    State.hashWith (fun i s => i + s.length) stateA
      = State.hashWith (fun i s => i + s.length) ⟨⟨"version", "chromium", 5, 7⟩, .PENDING, none, none⟩ := by
  have h := (C1_eq_by_index_hash_by_index_and_browser stateA
    ⟨⟨"version", "chromium", 5, 7⟩, .PENDING, none, none⟩).2 ⟨rfl, rfl⟩
  exact ⟨h.1, h.2 _⟩

/-- C2: `reproduced` is true exactly when some entry of `request_vars` or of
`log_vars` is dict-equal to `\x7b'var': 'reproduced', 'val': 'OK'\x7d`; no
other entry shape makes it true. -/
theorem C2_reproduced_iff_ok_entry (r : StateResult) :
    r.reproduced = true ↔
      (∃ e ∈ r.request_vars, dictEq e entry_if_reproduced = true) ∨
      (∃ e ∈ r.log_vars, dictEq e entry_if_reproduced = true) := by
  simp only [StateResult.reproduced, Bool.or_eq_true, filter_nonempty_iff]

/-- Witness for C2 at a concrete result whose log vars contain the
reproduced entry (with its keys in reversed order, still dict-equal). -/
theorem C2_reproduced_iff_ok_entry_witness :
    (StateResult.mk [] [] [[("val", "OK"), ("var", "reproduced")]] false).reproduced = true :=
  (C2_reproduced_iff_ok_entry (StateResult.mk [] [] [[("val", "OK"), ("var", "reproduced")]] false)).mpr
    (Or.inr ⟨[("val", "OK"), ("var", "reproduced")], by simp, by decide⟩)

/-- C3: `State.from_dict` reconstructs a revision state from a record whose
`type` is `"revision"`, a version state from a record whose `type` is
`"version"`, and raises an explicit unknown-state-type error on every other
discriminator value. -/
theorem C3_from_dict_dispatch (d : StateData) :
    (d.type = "revision" → State.from_dict d = .ok (BaseRevision.from_dict d)) ∧
    (d.type = "version" → State.from_dict d = .ok (BaseVersion.from_dict d)) ∧
    (d.type ≠ "revision" → d.type ≠ "version" →
      State.from_dict d = .error ("Unknown state type: " ++ d.type)) := by
  refine ⟨fun h => ?_, fun h => ?_, fun h1 h2 => ?_⟩
  · unfold State.from_dict
    rw [h]
    rfl
  · unfold State.from_dict
    rw [h]
    rfl
  · unfold State.from_dict
    split
    · exact absurd (by assumption) h1
    · exact absurd (by assumption) h2
    · rfl

/-- Witness for C3 at the three concrete records with types `"revision"`,
`"version"` and `"commit"`. -/
theorem C3_from_dict_dispatch_witness :
    State.from_dict ⟨"revision", "chromium", 1, 10⟩
      = .ok (BaseRevision.from_dict ⟨"revision", "chromium", 1, 10⟩) ∧
    State.from_dict ⟨"version", "chromium", 2, 20⟩
      = .ok (BaseVersion.from_dict ⟨"version", "chromium", 2, 20⟩) ∧
    State.from_dict ⟨"commit", "chromium", 3, 30⟩
      = .error "Unknown state type: commit" :=
  ⟨(C3_from_dict_dispatch ⟨"revision", "chromium", 1, 10⟩).1 rfl,
   (C3_from_dict_dispatch ⟨"version", "chromium", 2, 20⟩).2.1 rfl,
   (C3_from_dict_dispatch ⟨"commit", "chromium", 3, 30⟩).2.2 (by decide) (by decide)⟩

/-- C4: `UNAVAILABLE` is terminal and overriding — on a state whose condition
is already `UNAVAILABLE`, `has_available_binary` returns `false` without
consulting the online probe and leaves the state unchanged; and on any other
state, when the probe reports no binary the condition is set to `UNAVAILABLE`
and `false` is returned. -/
theorem C4_unavailable_terminal_and_overriding (s : State) (online : Bool) :
    (s.condition = .UNAVAILABLE →
      (s.has_available_binary online).ret = false ∧
      (s.has_available_binary online).probed = false ∧
      (s.has_available_binary online).after = s) ∧
    (s.condition ≠ .UNAVAILABLE → online = false →
      (s.has_available_binary online).ret = false ∧
      (s.has_available_binary online).after.condition = .UNAVAILABLE) := by
  constructor
  · intro h
    simp [State.has_available_binary, h]
  · intro h honline
    simp [State.has_available_binary, h, honline]

/-- Witness for C4: a concrete `UNAVAILABLE` state is never probed, and a
concrete `PENDING` state whose probe fails ends up `UNAVAILABLE`. -/
theorem C4_unavailable_terminal_and_overriding_witness :
    ((⟨⟨"revision", "chromium", 9, 90⟩, .UNAVAILABLE, none, none⟩ :
        State).has_available_binary true).probed = false ∧
    ((stateA.has_available_binary false).after.condition = .UNAVAILABLE) :=
  ⟨((C4_unavailable_terminal_and_overriding
      ⟨⟨"revision", "chromium", 9, 90⟩, .UNAVAILABLE, none, none⟩ true).1 rfl).2.1,
   ((C4_unavailable_terminal_and_overriding stateA false).2 (by decide) rfl).2⟩

/-! ### Availability cache (C5), mongodb.py -/

/-- A document of a binary-availability collection, as written by
`store_binary_availability_online_cache` (mongodb.py lines 289-304). -/
structure AvailDoc where
  state : StateData
  binary_online : Bool
  url : Option String
  ts : Nat
  deriving DecidableEq, Repr

/-- MongoDB `update_one(filter, \x7b'＄set': ...\x7d, upsert=True)` on a
collection in insertion order: replace the first document matching the state
filter, or append when none matches. -/
def update_one_upsert (target : StateData) (newDoc : AvailDoc) : List AvailDoc → List AvailDoc
  | [] => [newDoc]
  | d :: rest =>
    if d.state = target then newDoc :: rest
    else d :: update_one_upsert target newDoc rest

/-- Embeds `MongoDB.store_binary_availability_online_cache` (mongodb.py lines
289-304): an upsert keyed by the state's serialized identity, setting the
availability boolean, the url and a fresh timestamp `now`. -/
def store_binary_availability_online_cache (coll : List AvailDoc) (s : StateData) (binary_online : Bool)
    (url : Option String) (now : Nat) : List AvailDoc :=
  update_one_upsert s ⟨s, binary_online, url, now⟩ coll

/-- Embeds `MongoDB.has_binary_available_online` (mongodb.py lines 259-264):
`find_one` by the state's serialized identity, returning `none` when no
document matches and the stored `binary_online` boolean otherwise. -/
def has_binary_available_online (coll : List AvailDoc) (s : StateData) : Option Bool :=
  (coll.find? (fun d => decide (d.state = s))).map AvailDoc.binary_online

/-- One `record` call of the availability cache, with its arguments. -/
structure CacheOp where
  state : StateData
  binary_online : Bool
  url : Option String
  ts : Nat
  deriving DecidableEq, Repr

/-- Runs a sequence of `record` calls against a collection, oldest first. -/
def runOps (coll : List AvailDoc) : List CacheOp → List AvailDoc
  | [] => coll
  | op :: rest =>
    runOps (store_binary_availability_online_cache coll op.state op.binary_online op.url op.ts) rest

/-- The availability collection produced by a history of `record` calls,
starting from the empty collection. -/
def applyOps (ops : List CacheOp) : List AvailDoc := runOps [] ops

theorem update_one_upsert_countP_ne (target : StateData) (newDoc : AvailDoc)
    (hnd : newDoc.state = target) (s₀ : StateData) (hne : s₀ ≠ target) (coll : List AvailDoc) :
    (update_one_upsert target newDoc coll).countP (fun d => decide (d.state = s₀))
      = coll.countP (fun d => decide (d.state = s₀)) := by
  have hn : ¬ newDoc.state = s₀ := by rw [hnd]; exact Ne.symm hne
  induction coll with
  | nil => simp [update_one_upsert, List.countP_cons, hn]
  | cons d rest ih =>
    by_cases hd : d.state = target
    · have hds : ¬ d.state = s₀ := by rw [hd]; exact Ne.symm hne
      have hts : ¬ target = s₀ := Ne.symm hne
      simp [update_one_upsert, hd, List.countP_cons, hn, hds, hts]
    · simp only [update_one_upsert, if_neg hd, List.countP_cons, ih]

theorem update_one_upsert_countP_eq (target : StateData) (newDoc : AvailDoc)
    (hnd : newDoc.state = target) (coll : List AvailDoc) :
    (update_one_upsert target newDoc coll).countP (fun d => decide (d.state = target))
      = max 1 (coll.countP (fun d => decide (d.state = target))) := by
  have hn : decide (newDoc.state = target) = true := by simp [hnd]
  induction coll with
  | nil =>
    simp [update_one_upsert, List.countP_cons, hn]
  | cons d rest ih =>
    by_cases hd : d.state = target
    · have h2 : decide (d.state = target) = true := by simp [hd]
      rw [update_one_upsert, if_pos hd, List.countP_cons, List.countP_cons]
      simp [hn, h2]
    · have h2 : decide (d.state = target) = false := by simp [hd]
      rw [update_one_upsert, if_neg hd, List.countP_cons, List.countP_cons, ih]
      simp [h2]

/-- Well-formedness of an availability collection: at most one document per
state identity. -/
def AvailWF (coll : List AvailDoc) : Prop :=
  ∀ s₀ : StateData, coll.countP (fun d => decide (d.state = s₀)) ≤ 1

theorem store_preserves_AvailWF (coll : List AvailDoc) (s : StateData) (b : Bool)
    (u : Option String) (t : Nat) (h : AvailWF coll) :
    AvailWF (store_binary_availability_online_cache coll s b u t) := by
  intro s₀
  by_cases hs : s₀ = s
  · subst hs
    rw [store_binary_availability_online_cache,
      update_one_upsert_countP_eq s₀ ⟨s₀, b, u, t⟩ rfl]
    have := h s₀
    omega
  · rw [store_binary_availability_online_cache, update_one_upsert_countP_ne s _ rfl s₀ hs]
    exact h s₀

theorem applyOps_AvailWF (ops : List CacheOp) : AvailWF (applyOps ops) := by
  suffices h : ∀ coll, AvailWF coll → AvailWF (runOps coll ops) by
    exact h [] (fun s₀ => by simp [List.countP_nil])
  induction ops with
  | nil => intro coll h; exact h
  | cons op rest ih =>
    intro coll h
    exact ih _ (store_preserves_AvailWF coll op.state op.binary_online op.url op.ts h)

theorem store_find_self (coll : List AvailDoc) (s : StateData) (b : Bool)
    (u : Option String) (t : Nat) :
    (store_binary_availability_online_cache coll s b u t).find? (fun d => decide (d.state = s))
      = some ⟨s, b, u, t⟩ := by
  rw [store_binary_availability_online_cache]
  induction coll with
  | nil => simp [update_one_upsert]
  | cons d rest ih =>
    by_cases hd : d.state = s
    · simp [update_one_upsert, hd]
    · simp only [update_one_upsert, if_neg hd]
      rw [List.find?_cons_of_neg _ (by simp [hd])]
      exact ih

theorem store_lookup_other (coll : List AvailDoc) (s s₀ : StateData) (b : Bool)
    (u : Option String) (t : Nat) (hne : s₀ ≠ s) :
    has_binary_available_online (store_binary_availability_online_cache coll s b u t) s₀
      = has_binary_available_online coll s₀ := by
  rw [has_binary_available_online, has_binary_available_online, store_binary_availability_online_cache]
  congr 1
  have h1 : ¬ (s = s₀) := fun h => hne h.symm
  induction coll with
  | nil =>
    simp [update_one_upsert, List.find?, h1]
  | cons d rest ih =>
    by_cases hd : d.state = s
    · have hds : ¬ d.state = s₀ := by rw [hd]; exact h1
      rw [update_one_upsert, if_pos hd]
      rw [List.find?_cons_of_neg _ (by simp [h1]), List.find?_cons_of_neg _ (by simp [hds])]
    · rw [update_one_upsert, if_neg hd]
      by_cases hds : d.state = s₀
      · rw [List.find?_cons_of_pos _ (by simp [hds]), List.find?_cons_of_pos _ (by simp [hds])]
      · rw [List.find?_cons_of_neg _ (by simp [hds]), List.find?_cons_of_neg _ (by simp [hds])]
        exact ih

theorem store_idempotent (coll : List AvailDoc) (s : StateData) (b b' : Bool)
    (u u' : Option String) (t t' : Nat) :
    store_binary_availability_online_cache
        (store_binary_availability_online_cache coll s b u t) s b' u' t'
      = store_binary_availability_online_cache coll s b' u' t' := by
  simp only [store_binary_availability_online_cache]
  induction coll with
  | nil => simp [update_one_upsert]
  | cons d rest ih =>
    by_cases hd : d.state = s
    · simp [update_one_upsert, hd]
    · simp only [update_one_upsert, if_neg hd, ih]

theorem runOps_lookup_none_iff (ops : List CacheOp) (s : StateData) :
    ∀ coll, (has_binary_available_online (runOps coll ops) s = none ↔
      has_binary_available_online coll s = none ∧ ∀ op ∈ ops, op.state ≠ s) := by
  induction ops with
  | nil => intro coll; simp [runOps]
  | cons op rest ih =>
    intro coll
    rw [runOps, ih]
    by_cases hop : op.state = s
    · subst hop
      constructor
      · rintro ⟨h1, -⟩
        rw [has_binary_available_online, store_find_self] at h1
        simp at h1
      · rintro ⟨-, h2⟩
        exact absurd rfl (h2 op (by simp))
    · rw [store_lookup_other _ _ _ _ _ _ (fun h => hop h.symm)]
      constructor
      · rintro ⟨h1, h2⟩
        exact ⟨h1, by simpa [hop] using h2⟩
      · rintro ⟨h1, h2⟩
        exact ⟨h1, fun o ho => h2 o (by simp [ho])⟩

/-- C5: the availability cache is an idempotent last-write-wins upsert keyed
by state identity.  Over any history `ops` of `record` calls: after recording
`(s, b, u)` at time `t` (i) every state identity has at most one availability
document, (ii) a lookup of `s` returns the just-recorded boolean `b` and the
matching document carries exactly the refreshed timestamp `t` (and url `u`),
(iii) re-recording over an existing record rewrites it in place (last write
wins, idempotent), and (iv) before the write, a lookup of `s` returns `none`
exactly when no `record` call for identity `s` appears in the history. -/
theorem C5_availability_cache_upsert (ops : List CacheOp) (s : StateData) (b : Bool)
    (u : Option String) (t : Nat) :
    (∀ s₀ : StateData,
      (store_binary_availability_online_cache (applyOps ops) s b u t).countP
        (fun d => decide (d.state = s₀)) ≤ 1) ∧
    has_binary_available_online (store_binary_availability_online_cache (applyOps ops) s b u t) s
      = some b ∧
    (store_binary_availability_online_cache (applyOps ops) s b u t).find?
        (fun d => decide (d.state = s)) = some ⟨s, b, u, t⟩ ∧
    (∀ b' u' t', store_binary_availability_online_cache
        (store_binary_availability_online_cache (applyOps ops) s b u t) s b' u' t'
      = store_binary_availability_online_cache (applyOps ops) s b' u' t') ∧
    (has_binary_available_online (applyOps ops) s = none ↔ ∀ op ∈ ops, op.state ≠ s) := by
  refine ⟨store_preserves_AvailWF _ s b u t (applyOps_AvailWF ops), ?_,
    store_find_self _ s b u t, fun b' u' t' => store_idempotent _ s b b' u u' t t', ?_⟩
  · rw [has_binary_available_online, store_find_self]
    rfl
  · rw [applyOps, runOps_lookup_none_iff]
    simp [has_binary_available_online]

/-- Witness for C5 at a concrete two-operation history. -/
theorem C5_availability_cache_upsert_witness :
    has_binary_available_online
      (store_binary_availability_online_cache
        (applyOps [⟨⟨"revision", "chromium", 4, 40⟩, false, none, 1⟩])
        ⟨"revision", "chromium", 4, 40⟩ true (some "http://x") 2)
      ⟨"revision", "chromium", 4, 40⟩ = some true :=
  (C5_availability_cache_upsert [⟨⟨"revision", "chromium", 4, 40⟩, false, none, 1⟩]
    ⟨"revision", "chromium", 4, 40⟩ true (some "http://x") 2).2.1

/-! ### Result cache (C6, C9), mongodb.py -/

/-- The raw collected results of one evaluation, as stored in a result
document's `results` field and consumed by `StateResult.from_dict`. -/
structure ResultsData where
  requests : List RequestEntry
  req_vars : List Entry
  log_vars : List Entry
  deriving DecidableEq, Repr

/-- The Identity-Key part of `TestParameters` read by `store_result` and
`__to_query` (mongodb.py lines 129-158, 226-247): the state identity, the
automation mode, the browser configuration name, CLI options, extensions and
the mech group. -/
structure TestParameters where
  state : StateData
  automation : String
  browser_setting : String
  cli_options : List String
  extensions : List String
  mech_group : String
  deriving DecidableEq, Repr

/-- Embeds a `TestResult` as consumed by `store_result` and produced by
`create_test_result_with`. -/
structure TestResult where
  params : TestParameters
  browser_version : String
  binary_origin : String
  data : ResultsData
  is_dirty : Bool
  deriving DecidableEq, Repr

/-- A document of a results collection, with the fields written by
`store_result` and read by the queries.  (The optional `driver_version` and
the Firefox `build_id`/`artisanal` extras are not read by any query and are
omitted.) -/
structure ResultDoc where
  browser_automation : String
  browser_version : String
  binary_origin : String
  browser_config : String
  cli_options : List String
  extensions : List String
  state : StateData
  mech_group : String
  results : Option ResultsData
  dirty : Bool
  ts : Nat
  deriving DecidableEq, Repr

/-- Embeds `MongoDB.store_result` (mongodb.py lines 129-158): builds the
document from the result's parameters and appends it to the collection with
`insert_one`. -/
def store_result (coll : List ResultDoc) (result : TestResult) (now : Nat) : List ResultDoc :=
  coll ++ [⟨result.params.automation, result.browser_version, result.binary_origin,
    result.params.browser_setting, result.params.cli_options, result.params.extensions,
    result.params.state, result.params.mech_group, some result.data, result.is_dirty, now⟩]

/-- The MongoDB `\x7b'＄size': n, '＄all': wanted\x7d` array predicate used for
`extensions` and `cli_options`: when `wanted` is non-empty the stored array
has the same length and contains every wanted element; when `wanted` is
empty the stored array is required to equal `[]`. -/
def sizeAllMatch (wanted stored : List String) : Bool :=
  if wanted.isEmpty then stored.isEmpty
  else decide (stored.length = wanted.length) && wanted.all (fun x => stored.contains x)

/-- Embeds the query built by `MongoDB.__to_query` (mongodb.py lines
226-247), as a predicate on documents. -/
def to_query_matches (params : TestParameters) (doc : ResultDoc) : Bool :=
  decide (doc.state = params.state) &&
  decide (doc.browser_automation = params.automation) &&
  decide (doc.browser_config = params.browser_setting) &&
  decide (doc.mech_group = params.mech_group) &&
  sizeAllMatch params.extensions doc.extensions &&
  sizeAllMatch params.cli_options doc.cli_options

/-- The projection of a matching document returned by `get_result` through
`create_test_result_with`. -/
structure RetrievedResult where
  browser_version : String
  binary_origin : String
  results : Option ResultsData
  dirty : Bool
  deriving DecidableEq, Repr

/-- Embeds `MongoDB.get_result` (mongodb.py lines 160-170): `find_one` with
the Identity-Key query, returning the first matching document's fields, or
`none` when no document matches. -/
def get_result (coll : List ResultDoc) (params : TestParameters) : Option RetrievedResult :=
  (coll.find? (to_query_matches params)).map
    (fun doc => ⟨doc.browser_version, doc.binary_origin, doc.results, doc.dirty⟩)

/-- Runs a sequence of later `store_result` calls, oldest first. -/
def runStores (coll : List ResultDoc) : List (TestResult × Nat) → List ResultDoc
  | [] => coll
  | (result, now) :: rest => runStores (store_result coll result now) rest

theorem get_result_append (coll extra : List ResultDoc) (params : TestParameters)
    (r : RetrievedResult) (h : get_result coll params = some r) :
    get_result (coll ++ extra) params = some r := by
  rw [get_result, List.find?_append]
  rw [get_result] at h
  rcases hf : coll.find? (to_query_matches params) with - | doc
  · rw [hf] at h
    simp at h
  · rw [hf] at h
    simpa using h

theorem runStores_append (coll : List ResultDoc) (later : List (TestResult × Nat)) :
    ∃ extra, runStores coll later = coll ++ extra := by
  induction later generalizing coll with
  | nil => exact ⟨[], by simp [runStores]⟩
  | cons p rest ih =>
    obtain ⟨extra, hextra⟩ := ih (store_result coll p.1 p.2)
    exact ⟨[⟨p.1.params.automation, p.1.browser_version, p.1.binary_origin,
      p.1.params.browser_setting, p.1.params.cli_options, p.1.params.extensions,
      p.1.params.state, p.1.params.mech_group, some p.1.data, p.1.is_dirty, p.2⟩] ++ extra,
      by rw [runStores, hextra, store_result, List.append_assoc]⟩

/-- C6: the result cache is append-only with monotone reads.  A
`store_result` call appends one document: every prior document is kept, in
place (the old collection is a prefix of the new one).  And reads are
monotone: once `get_result` returns a result for an Identity Key, it returns
that same first-matching result after any sequence of later `store_result`
calls. -/
theorem C6_result_cache_append_only_monotone (coll : List ResultDoc) (result : TestResult)
    (now : Nat) (params : TestParameters) (r : RetrievedResult)
    (later : List (TestResult × Nat)) :
    coll <+: store_result coll result now ∧
    (store_result coll result now).length = coll.length + 1 ∧
    (∀ doc ∈ coll, doc ∈ store_result coll result now) ∧
    (get_result coll params = some r → get_result (runStores coll later) params = some r) := by
  refine ⟨⟨_, rfl⟩, by simp [store_result], fun doc hdoc => by simp [store_result, hdoc], ?_⟩
  intro h
  obtain ⟨extra, hextra⟩ := runStores_append coll later
  rw [hextra]
  exact get_result_append coll extra params r h

/-- Concrete parameters, result and document used to witness C6. -/
def tpW : TestParameters := ⟨⟨"revision", "chromium", 3, 30⟩, "terminal", "default", [], [], "poc"⟩

def trW : TestResult := ⟨tpW, "100.0", "downloaded", ⟨[], [], []⟩, false⟩

/-- Witness for C6: after storing a result for `tpW` in the empty collection,
a later store of the same result leaves the first `get_result` answer
unchanged. -/
theorem C6_result_cache_append_only_monotone_witness :
    get_result (runStores (store_result [] trW 1) [(trW, 2)]) tpW
      = some ⟨"100.0", "downloaded", some ⟨[], [], []⟩, false⟩ :=
  (C6_result_cache_append_only_monotone (store_result [] trW 1) trW 1 tpW
    ⟨"100.0", "downloaded", some ⟨[], [], []⟩, false⟩ [(trW, 2)]).2.2.2 (by decide)

/-! ### Store connection (C8), mongodb.py -/

/-- Embeds `DatabaseParameters` as read by `MongoDB.connect`. -/
structure DatabaseParameters where
  host : String
  username : String
  password : String
  database_name : String
  binary_cache_limit : Nat
  deriving DecidableEq, Repr

/-- A `MongoClient` handle as configured by `connect`: the constructor
arguments that matter to the claims, plus whether the server it points at is
reachable (`address`-known). -/
structure MongoClientHandle where
  host : String
  port : Nat
  server_selection_timeout_ms : Nat
  reachable : Bool
  deriving DecidableEq, Repr

/-- The mutable fields of the `MongoDB` singleton (`self.client`,
`self._db`). -/
structure MongoDBState where
  client : Option MongoClientHandle
  db : Option String
  deriving DecidableEq, Repr

/-- The state after `MongoDB.__init__`: no client, no database. -/
def MongoDB_init : MongoDBState := ⟨none, none⟩

/-- Embeds `MongoDB.connect` (mongodb.py lines 54-77).  A client configured
with `serverSelectionTimeoutMS=10000` is always assigned; `server_info()`
then either succeeds (the probe of reachability) and `_db` is assigned, or
times out, in which case a `ServerException` is raised (second component
`true`) and `_db` is left unassigned. -/
def connect (st : MongoDBState) (params : DatabaseParameters) (server_reachable : Bool) :
    MongoDBState × Bool :=
  let client : MongoClientHandle := ⟨params.host, 27017, 10000, server_reachable⟩
  if server_reachable then (⟨some client, some params.database_name⟩, false)
  else (⟨some client, st.db⟩, true)

/-- Embeds `MongoDB.get_collection` (mongodb.py lines 113-121), with the
database's collection listing passed in: raises a `ServerException` (as an
`Except.error`) when no database handle is present. -/
def get_collection (st : MongoDBState) (existing : List String) (name : String)
    (create_if_not_found : Bool) : Except String String :=
  match st.db with
  | none => .error "Database server does not have a database"
  | some _ =>
    if existing.contains name then .ok name
    else if create_if_not_found then .ok name
    else .error ("Could not find collection " ++ name)

/-- Embeds the `connected` field of `MongoDB.get_info` (mongodb.py lines
349-353): connected iff a client exists and knows a server address. -/
def get_info_connected (st : MongoDBState) : Bool :=
  match st.client with
  | some c => c.reachable
  | none => false

/-- C8: when the store is unreachable at session start, `connect` on the
fresh singleton raises a `ServerException` after the bounded
10000 ms server-selection timeout, and afterwards no usable database handle
remains: `_db` is still unassigned, every `get_collection` call raises, and
`get_info` reports not connected. -/
theorem C8_store_unreachable_fatal (params : DatabaseParameters) :
    (connect MongoDB_init params false).2 = true ∧
    (connect MongoDB_init params false).1.db = none ∧
    ((connect MongoDB_init params false).1.client.map
      MongoClientHandle.server_selection_timeout_ms) = some 10000 ∧
    (∀ existing name c, get_collection (connect MongoDB_init params false).1 existing name c
      = .error "Database server does not have a database") ∧
    get_info_connected (connect MongoDB_init params false).1 = false := by
  refine ⟨rfl, rfl, rfl, fun existing name c => rfl, rfl⟩

/-- Witness for C8 at concrete database parameters. -/
theorem C8_store_unreachable_fatal_witness :
    (connect MongoDB_init ⟨"mongo", "user", "pw", "bci", 0⟩ false).2 = true ∧
    (connect MongoDB_init ⟨"mongo", "user", "pw", "bci", 0⟩ false).1.db = none :=
  ⟨(C8_store_unreachable_fatal ⟨"mongo", "user", "pw", "bci", 0⟩).1,
   (C8_store_unreachable_fatal ⟨"mongo", "user", "pw", "bci", 0⟩).2.1⟩

/-! ### Custom evaluation framework (C7, C10), custom_evaluation.py -/

/-- The `max_tries` bound of `perform_specific_evaluation`
(custom_evaluation.py line 125). -/
def max_tries : Nat := 3

/-- Embeds the `for _ in range(max_tries)` loop inside the single
`try` block (custom_evaluation.py lines 126-135): attempt `k` either
completes or raises (`raises k = true`); the first raising attempt aborts
the remaining iterations.  Returns the number of attempts actually executed
and whether an exception escaped the loop. -/
def loopTries (raises : Nat → Bool) : Nat → Nat → Nat × Bool
  | _, 0 => (0, false)
  | k, n + 1 =>
    if raises k then (1, true)
    else
      let p := loopTries raises (k + 1) n
      (p.1 + 1, p.2)

/-- The whole attempt loop of one evaluation: up to `max_tries` attempts
starting at attempt `0`. -/
def evalAttemptLoop (raises : Nat → Bool) : Nat × Bool := loopTries raises 0 max_tries

/-- The new sanity-check branch (custom_evaluation.py lines 145-149):
some collected request var has `var` equal to `'sanity_check'` and `val`
equal to `'OK'` (read by key access, not whole-dict equality). -/
def sanity_check_new (res : ResultsData) : Bool :=
  !(res.req_vars.filter
      (fun e => e.lookup "var" == some "sanity_check" && e.lookup "val" == some "OK")).isEmpty

/-- Substring containment on lists of characters (Python `in` on strings). -/
def charsContain (pat : List Char) : List Char → Bool
  | [] => pat.isEmpty
  | c :: rest => pat.isPrefixOf (c :: rest) || charsContain pat rest

/-- Python `pat in s` for strings. -/
def strContains (s pat : String) : Bool := charsContain pat.data s.data

/-- The backwards-compatible sanity-check branch (custom_evaluation.py line
152): some collected request URL contains `'report/?leak=baseline'`. -/
def sanity_check_old (res : ResultsData) : Bool :=
  !(res.requests.filter (fun req => strContains req.url "report/?leak=baseline")).isEmpty

/-- Embeds `CustomEvaluationFramework.perform_specific_evaluation`
(custom_evaluation.py lines 113-156).  `raises k` says whether attempt `k`
of the loop raises; `results` is what `collector.collect_results()` returns
in the `finally` block.  The function is total: an exception inside the
`try` is caught and only sets `is_dirty`; the collected results are always
wrapped in a returned `TestResult`. -/
def perform_specific_evaluation (params : TestParameters) (raises : Nat → Bool)
    (results : ResultsData) (browser_version binary_origin : String) : TestResult :=
  let is_dirty := (evalAttemptLoop raises).2
  let is_dirty :=
    if is_dirty then is_dirty
    else if sanity_check_new results then is_dirty
    else if sanity_check_old results then is_dirty
    else true
  ⟨params, browser_version, binary_origin, results, is_dirty⟩

theorem loopTries_le (raises : Nat → Bool) (k n : Nat) : (loopTries raises k n).1 ≤ n := by
  induction n generalizing k with
  | zero => simp [loopTries]
  | succ n ih =>
    rw [loopTries]
    by_cases h : raises k
    · simp [h]
    · simpa [h] using Nat.succ_le_succ (ih (k + 1))

theorem loopTries_stops_at_first (raises : Nat → Bool) (n j k : Nat) (hj : j < n)
    (hr : raises (k + j) = true) (hbefore : ∀ i < j, raises (k + i) = false) :
    loopTries raises k n = (j + 1, true) := by
  induction j generalizing k n with
  | zero =>
    rcases n with - | n
    · omega
    · rw [loopTries, if_pos (by simpa using hr)]
  | succ j ih =>
    rcases n with - | n
    · omega
    · rw [loopTries, if_neg (by simpa using hbefore 0 (Nat.succ_pos j))]
      have := ih n (k + 1) (by omega)
        (by rw [show k + 1 + j = k + (j + 1) by omega]; exact hr)
        (fun i hi => by
          rw [show k + 1 + i = k + (i + 1) by omega]
          exact hbefore (i + 1) (by omega))
      rw [this]

/-- C7 fails on the code: the attempt loop does not retry after an
exceptional attempt.  With attempt `0` raising and attempts `1` and `2` fine,
the loop executes exactly one attempt (although two tries remained and a
non-exceptional run was obtainable) and the exception flag stays set, so the
evaluator does not `retry ... to obtain a non-exceptional run`. -/
theorem C7_no_retry_after_exception_counterexample :
    (evalAttemptLoop (fun i => decide (i = 0))).1 = 1 ∧
    (evalAttemptLoop (fun i => decide (i = 0))).2 = true ∧
    (fun i => decide (i = 0)) 1 = false ∧ 1 < max_tries := by
  refine ⟨rfl, rfl, by decide, by decide⟩

/-- C7 (amended): the evaluator executes a fixed loop of at most 3 attempts
but stops at the first exceptional attempt without retrying (an exceptional
attempt `j` with all earlier attempts clean ends the loop after exactly
`j + 1` attempts); an exceptional attempt never propagates: it yields a
returned result with the dirty flag set. -/
theorem C7_bounded_attempts_exception_dirty (params : TestParameters) (raises : Nat → Bool)
    (results : ResultsData) (bv bo : String) :
    (evalAttemptLoop raises).1 ≤ max_tries ∧
    ((evalAttemptLoop raises).2 = true →
      (perform_specific_evaluation params raises results bv bo).is_dirty = true) ∧
    (∀ j < max_tries, raises j = true → (∀ i < j, raises i = false) →
      evalAttemptLoop raises = (j + 1, true)) := by
  refine ⟨loopTries_le raises 0 max_tries, fun h => ?_, fun j hj hr hbefore => ?_⟩
  · simp [perform_specific_evaluation, h]
  · exact loopTries_stops_at_first raises max_tries j 0 hj (by simpa using hr)
      (fun i hi => by simpa using hbefore i hi)

/-- Witness for C7's amended theorem: with only attempt `1` raising, the loop
runs exactly 2 attempts and the returned result is dirty. -/
theorem C7_bounded_attempts_exception_dirty_witness :
    evalAttemptLoop (fun i => decide (i = 1)) = (2, true) ∧
    (perform_specific_evaluation tpW (fun i => decide (i = 1)) ⟨[], [], []⟩ "v" "o").is_dirty
      = true :=
  ⟨(C7_bounded_attempts_exception_dirty tpW (fun i => decide (i = 1)) ⟨[], [], []⟩ "v" "o").2.2
      1 (by decide) (by decide) (fun i hi => by interval_cases i; decide),
   (C7_bounded_attempts_exception_dirty tpW (fun i => decide (i = 1)) ⟨[], [], []⟩ "v" "o").2.1
      (by decide)⟩

/-- C10: the returned result's dirty flag is `false` only when the collected
request vars contain an entry with `var` `'sanity_check'` and `val` `'OK'`,
or some collected request URL contains `'report/?leak=baseline'`; whenever
neither holds, the returned result is dirty. -/
theorem C10_dirty_unless_sanity_check (params : TestParameters) (raises : Nat → Bool)
    (results : ResultsData) (bv bo : String) :
    ((perform_specific_evaluation params raises results bv bo).is_dirty = false →
      (∃ e ∈ results.req_vars,
        e.lookup "var" = some "sanity_check" ∧ e.lookup "val" = some "OK") ∨
      (∃ req ∈ results.requests, strContains req.url "report/?leak=baseline" = true)) ∧
    (¬ ((∃ e ∈ results.req_vars,
          e.lookup "var" = some "sanity_check" ∧ e.lookup "val" = some "OK") ∨
        (∃ req ∈ results.requests, strContains req.url "report/?leak=baseline" = true)) →
      (perform_specific_evaluation params raises results bv bo).is_dirty = true) := by
  have hnew : sanity_check_new results = true ↔
      ∃ e ∈ results.req_vars,
        e.lookup "var" = some "sanity_check" ∧ e.lookup "val" = some "OK" := by
    rw [sanity_check_new, filter_nonempty_iff]
    simp
  have hold : sanity_check_old results = true ↔
      ∃ req ∈ results.requests, strContains req.url "report/?leak=baseline" = true := by
    rw [sanity_check_old, filter_nonempty_iff]
  constructor
  · intro h
    rw [perform_specific_evaluation] at h
    simp only at h
    rcases hx : (evalAttemptLoop raises).2 with - | -
    · rw [hx] at h
      simp only [if_false, Bool.false_eq_true] at h
      by_cases h1 : sanity_check_new results
      · exact Or.inl (hnew.mp h1)
      · by_cases h2 : sanity_check_old results
        · exact Or.inr (hold.mp h2)
        · rw [if_neg (by simp [h1]), if_neg (by simp [h2])] at h
          cases h
    · rw [hx] at h
      simp at h
  · intro h
    rw [not_or] at h
    have h1 : sanity_check_new results = false := by
      rcases hb : sanity_check_new results with - | -
      · rfl
      · exact absurd (hnew.mp hb) h.1
    have h2 : sanity_check_old results = false := by
      rcases hb : sanity_check_old results with - | -
      · rfl
      · exact absurd (hold.mp hb) h.2
    rw [perform_specific_evaluation]
    simp only [h1, h2]
    rcases hx : (evalAttemptLoop raises).2 with - | - <;> simp

/-- Witness for C10 at concrete collected results: empty results fail the
sanity check and come back dirty; a result set with the sanity-check var
entry may come back clean, and indeed the dirty flag is then false, from
which the theorem's first component yields the entry back. -/
theorem C10_dirty_unless_sanity_check_witness :
    (perform_specific_evaluation tpW (fun _ => false) ⟨[], [], []⟩ "v" "o").is_dirty = true ∧
    ((∃ e ∈ [[("var", "sanity_check"), ("val", "OK")]],
        List.lookup "var" e = some "sanity_check" ∧ List.lookup "val" e = some "OK") ∨
      (∃ req ∈ ([] : List RequestEntry),
        strContains req.url "report/?leak=baseline" = true)) :=
  ⟨(C10_dirty_unless_sanity_check tpW (fun _ => false) ⟨[], [], []⟩ "v" "o").2
      (by simp),
   (C10_dirty_unless_sanity_check tpW (fun _ => false)
      ⟨[], [[("var", "sanity_check"), ("val", "OK")]], []⟩ "v" "o").1 (by decide)⟩

/-! ### Bulk rehydration (C9), mongodb.py -/

/-- The session-configuration fields of `EvaluationParameters` read by
`get_evaluated_states` (mongodb.py lines 184-224). -/
structure EvaluationParameters where
  browser_setting : String
  browser_name : String
  extensions : List String
  cli_options : List String
  mech_groups : List String
  only_release_revisions : Bool
  deriving DecidableEq, Repr

/-- Embeds the range query built by `get_evaluated_states` (mongodb.py lines
188-212), as a predicate on documents; `lo` and `hi` are the two boundary
states' revision numbers. -/
def evaluated_states_query (p : EvaluationParameters) (lo hi : Nat) (doc : ResultDoc) : Bool :=
  decide (doc.browser_config = p.browser_setting) &&
  decide (doc.mech_group = p.mech_groups.headD "") &&
  decide (doc.state.browser_name = p.browser_name) &&
  doc.results.isSome &&
  decide (doc.state.type = (if p.only_release_revisions then "version" else "revision")) &&
  (decide (lo ≤ doc.state.revision_number) && decide (doc.state.revision_number ≤ hi)) &&
  sizeAllMatch p.extensions doc.extensions &&
  sizeAllMatch p.cli_options doc.cli_options

/-- The `StateResult` rehydrated from a document by
`StateResult.from_dict(doc['results'], is_dirty=doc['dirty'])`; the query
guarantees `results` is present, so the default is never read. -/
def docStateResult (doc : ResultDoc) : StateResult :=
  StateResult.from_data (doc.results.getD ⟨[], [], []⟩).requests
    (doc.results.getD ⟨[], [], []⟩).req_vars (doc.results.getD ⟨[], [], []⟩).log_vars doc.dirty

/-- Embeds the per-document body of the loop in `get_evaluated_states`
(mongodb.py lines 215-223): `State.from_dict` on the stored state, the
rehydrated result, the outcome from the `OutcomeChecker`, and the condition
`FAILED` for a dirty record and `COMPLETED` otherwise.  A `from_dict` error
cannot occur for documents passing the query (their `state.type` is the
queried discriminator); it is mapped to `none` here. -/
def rehydrate_doc (checker : StateResult → Option Bool) (doc : ResultDoc) : Option State :=
  match State.from_dict doc.state with
  | .error _ => none
  | .ok st =>
    some { st with
      result := some (docStateResult doc)
      outcome := checker (docStateResult doc)
      condition := if doc.dirty then .FAILED else .COMPLETED }

/-- Embeds `MongoDB.get_evaluated_states` (mongodb.py lines 184-224):
filter the collection by the range query for the two boundary states, then
rehydrate each matching document. -/
def get_evaluated_states (coll : List ResultDoc) (p : EvaluationParameters)
    (boundary0 boundary1 : State) (checker : StateResult → Option Bool) : List State :=
  (coll.filter (evaluated_states_query p boundary0.revision_nb boundary1.revision_nb)).filterMap
    (rehydrate_doc checker)

theorem sizeAllMatch_iff (wanted stored : List String) :
    sizeAllMatch wanted stored = true ↔
      (if wanted = [] then stored = []
       else stored.length = wanted.length ∧ ∀ x ∈ wanted, x ∈ stored) := by
  rw [sizeAllMatch]
  by_cases h : wanted = []
  · simp [h, List.isEmpty_iff]
  · simp [h, List.isEmpty_iff]

theorem evaluated_states_query_iff (p : EvaluationParameters) (lo hi : Nat) (doc : ResultDoc) :
    evaluated_states_query p lo hi doc = true ↔
      (doc.browser_config = p.browser_setting ∧
       doc.mech_group = p.mech_groups.headD "" ∧
       doc.state.browser_name = p.browser_name ∧
       doc.results.isSome = true ∧
       doc.state.type = (if p.only_release_revisions then "version" else "revision") ∧
       (lo ≤ doc.state.revision_number ∧ doc.state.revision_number ≤ hi) ∧
       (if p.extensions = [] then doc.extensions = []
        else doc.extensions.length = p.extensions.length ∧ ∀ x ∈ p.extensions, x ∈ doc.extensions) ∧
       (if p.cli_options = [] then doc.cli_options = []
        else doc.cli_options.length = p.cli_options.length ∧
          ∀ x ∈ p.cli_options, x ∈ doc.cli_options)) := by
  rw [evaluated_states_query]
  simp [sizeAllMatch_iff, and_assoc]

theorem rehydrate_doc_of_known_type (checker : StateResult → Option Bool) (doc : ResultDoc)
    (h : doc.state.type = "revision" ∨ doc.state.type = "version") :
    rehydrate_doc checker doc =
      some ⟨doc.state, if doc.dirty then .FAILED else .COMPLETED,
        some (docStateResult doc), checker (docStateResult doc)⟩ := by
  have hok : State.from_dict doc.state = .ok ⟨doc.state, .PENDING, none, none⟩ := by
    rcases h with h | h
    · unfold State.from_dict
      rw [h]
      rfl
    · unfold State.from_dict
      rw [h]
      rfl
  rw [rehydrate_doc, hok]

/-- C9: `get_evaluated_states` returns exactly the previously evaluated
states: a state is returned iff some stored document matches the session's
configuration filter (`browser_config`, `mech_group`, `state.browser_name`,
a present `results` field, the `state.type` selected by
`only_release_revisions`, extensions and cli_options with the size-and-
containment predicate) with its stored revision number within the boundary
states' revision numbers inclusive, and the state is that document's,
rehydrated with its result, its outcome computed by the `OutcomeChecker`,
and condition `COMPLETED` for a clean record and `FAILED` for a dirty one. -/
theorem C9_get_evaluated_states_exact (coll : List ResultDoc) (p : EvaluationParameters)
    (b0 b1 : State) (checker : StateResult → Option Bool) (st : State) :
    st ∈ get_evaluated_states coll p b0 b1 checker ↔
      ∃ doc ∈ coll,
        doc.browser_config = p.browser_setting ∧
        doc.mech_group = p.mech_groups.headD "" ∧
        doc.state.browser_name = p.browser_name ∧
        doc.results.isSome = true ∧
        doc.state.type = (if p.only_release_revisions then "version" else "revision") ∧
        b0.revision_nb ≤ doc.state.revision_number ∧
        doc.state.revision_number ≤ b1.revision_nb ∧
        (if p.extensions = [] then doc.extensions = []
         else doc.extensions.length = p.extensions.length ∧
           ∀ x ∈ p.extensions, x ∈ doc.extensions) ∧
        (if p.cli_options = [] then doc.cli_options = []
         else doc.cli_options.length = p.cli_options.length ∧
           ∀ x ∈ p.cli_options, x ∈ doc.cli_options) ∧
        st = ⟨doc.state, if doc.dirty then .FAILED else .COMPLETED,
          some (docStateResult doc), checker (docStateResult doc)⟩ := by
  rw [get_evaluated_states]
  simp only [List.mem_filterMap, List.mem_filter]
  constructor
  · rintro ⟨doc, ⟨hmem, hq⟩, hr⟩
    obtain ⟨h1, h2, h3, h4, h5, ⟨h6a, h6b⟩, h7, h8⟩ :=
      (evaluated_states_query_iff p _ _ doc).mp hq
    have htype : doc.state.type = "revision" ∨ doc.state.type = "version" := by
      rcases hrel : p.only_release_revisions with - | - <;> rw [hrel] at h5 <;> simp_all
    rw [rehydrate_doc_of_known_type checker doc htype] at hr
    exact ⟨doc, hmem, h1, h2, h3, h4, h5, h6a, h6b, h7, h8, (Option.some.inj hr).symm⟩
  · rintro ⟨doc, hmem, h1, h2, h3, h4, h5, h6a, h6b, h7, h8, hst⟩
    have htype : doc.state.type = "revision" ∨ doc.state.type = "version" := by
      rcases hrel : p.only_release_revisions with - | - <;> rw [hrel] at h5 <;> simp_all
    refine ⟨doc, ⟨hmem, (evaluated_states_query_iff p _ _ doc).mpr
      ⟨h1, h2, h3, h4, h5, ⟨h6a, h6b⟩, h7, h8⟩⟩, ?_⟩
    rw [rehydrate_doc_of_known_type checker doc htype, hst]

/-- A concrete evaluated document and session configuration for C9's
witness. -/
def docW : ResultDoc :=
  ⟨"terminal", "100.0", "downloaded", "default", [], [], ⟨"revision", "chromium", 3, 30⟩,
    "poc", some ⟨[], [], []⟩, false, 1⟩

def epW : EvaluationParameters := ⟨"default", "chromium", [], [], ["poc"], false⟩

/-- Witness for C9: the single stored clean document in range is rehydrated
as a `COMPLETED` state. -/
theorem C9_get_evaluated_states_exact_witness :
    (⟨docW.state, .COMPLETED, some (docStateResult docW), none⟩ : State) ∈
      get_evaluated_states [docW] epW
        ⟨⟨"revision", "chromium", 0, 0⟩, .PENDING, none, none⟩
        ⟨⟨"revision", "chromium", 9, 90⟩, .PENDING, none, none⟩ (fun _ => none) :=
  (C9_get_evaluated_states_exact [docW] epW
      ⟨⟨"revision", "chromium", 0, 0⟩, .PENDING, none, none⟩
      ⟨⟨"revision", "chromium", 9, 90⟩, .PENDING, none, none⟩ (fun _ => none)
      ⟨docW.state, .COMPLETED, some (docStateResult docW), none⟩).mpr
    ⟨docW, by simp, rfl, rfl, rfl, rfl, rfl, by decide, by decide, by decide, by decide, rfl⟩

end BugHog
